import Mathlib

/-!
Verification development for the prismio Recorder trace reader
(`prismio/readers/recorder_reader.py`, method `RecorderReader.read`).

The Python routine replays each rank's intercepted I/O calls through a
simulated file-descriptor table, resolving for every raw call record the
file name, byte offset, transferred volume, classification columns and
error annotations.  The definitions below are a shallow embedding of that
routine: Python dicts become association lists, Python `int(...)` becomes
an `Option Int`-valued parser (`none` models the `ValueError` the builtin
raises on non-numeric text), list indexing `args[i]` becomes `List.get?`
(`none` models `IndexError`), and an uncaught exception aborting the whole
`read` call is modelled by the step function returning `none`.
-/

namespace RecorderReader

/-- `charsBeginWith pat l` is true when `l` starts with `pat`. -/
def charsBeginWith : List Char → List Char → Bool
  | [], _ => true
  | _ :: _, [] => false
  | p :: ps, c :: cs => p == c && charsBeginWith ps cs

/-- `charsContain pat l` is true when `pat` occurs contiguously in `l`. -/
def charsContain (pat : List Char) : List Char → Bool
  | [] => charsBeginWith pat []
  | c :: cs => charsBeginWith pat (c :: cs) || charsContain pat cs

/-- Python's substring test `pat in s`. -/
def strHasSub (s pat : String) : Bool := charsContain pat.data s.data

/-- Accumulating decimal parser: `none` on the first non-digit character. -/
def digitsToNatAux : List Char → Nat → Option Nat
  | [], acc => some acc
  | c :: cs, acc =>
      if c.isDigit then digitsToNatAux cs (acc * 10 + (c.toNat - '0'.toNat))
      else none

/-- Model of Python's `int(string)`: an optional sign followed by at least
one decimal digit; anything else raises `ValueError`, modelled as `none`. -/
def pyToInt (s : String) : Option Int :=
  match s.data with
  | [] => none
  | '-' :: rest =>
      if rest.isEmpty then none
      else (digitsToNatAux rest 0).map (fun n => -(n : Int))
  | '+' :: rest =>
      if rest.isEmpty then none
      else (digitsToNatAux rest 0).map (fun n => (n : Int))
  | l => (digitsToNatAux l 0).map (fun n => (n : Int))

/-- `int(function_args[i])` in the Python source: `none` models either the
`IndexError` of a missing argument or the `ValueError` of a non-numeric
one, both of which propagate out of `read`. -/
def argInt (fargs : List String) (i : Nat) : Option Int :=
  (fargs.get? i).bind pyToInt

/-- Association-list lookup, modelling Python `d[k]` / `k in d`. -/
def alookup [BEq α] (k : α) : List (α × β) → Option β
  | [] => none
  | (k', v) :: rest => if k' == k then some v else alookup k rest

/-- Association-list update, modelling Python `d[k] = v`. -/
def aset [BEq α] (k : α) (v : β) : List (α × β) → List (α × β)
  | [] => [(k, v)]
  | (k', v') :: rest =>
      if k' == k then (k, v) :: rest else (k', v') :: aset k v rest

/-- Association-list deletion, modelling Python `del d[k]`. -/
def adel [BEq α] (k : α) : List (α × β) → List (α × β)
  | [] => []
  | (k', v') :: rest => if k' == k then rest else (k', v') :: adel k rest

/-- `Posix_IO_functions` from the source. -/
def posixIOFunctions : List String := [
  "creat",        "creat64",      "open",         "open64",   "close",
  "write",        "read",         "lseek",        "lseek64",  "pread",
  "pread64",      "pwrite",       "pwrite64",     "readv",    "writev",
  "mmap",         "mmap64",       "fopen",        "fopen64",  "fclose",
  "fwrite",       "fread",        "ftell",        "fseek",    "fsync",
  "fdatasync",    "__xstat",      "__xstat64",    "__lxstat", "__lxstat64",
  "__fxstat",     "__fxstat64",   "getcwd",       "mkdir",    "rmdir",
  "chdir",        "link",         "linkat",       "unlink",   "symlink",
  "symlinkat",    "readlink",     "readlinkat",   "rename",   "chmod",
  "chown",        "lchown",       "utime",        "opendir",  "readdir",
  "closedir",     "rewinddir",    "mknod",        "mknodat",  "fcntl",
  "dup",          "dup2",         "pipe",         "mkfifo",   "umask",
  "fdopen",       "fileno",       "access",       "faccessat", "tmpfile",
  "remove",       "truncate",     "ftruncate",    "vfprintf", "msync",
  "fseeko",       "ftello"]

/-- `MPI_IO_functions` from the source. -/
def mpiIOFunctions : List String := [
  "MPI_File_open",              "MPI_File_close",                "MPI_File_sync",
  "MPI_File_set_size",          "MPI_File_set_view",             "MPI_File_read",
  "MPI_File_read_at",           "MPI_File_read_at_all",          "MPI_File_read_all",
  "MPI_File_read_shared",       "MPI_File_read_ordered",         "MPI_File_read_at_all_begin",
  "MPI_File_read_all_begin",    "MPI_File_read_ordered_begin",   "MPI_File_iread_at",
  "MPI_File_iread",             "MPI_File_iread_shared",         "MPI_File_write",
  "MPI_File_write_at",          "MPI_File_write_at_all",         "MPI_File_write_all",
  "MPI_File_write_shared",      "MPI_File_write_ordered",        "MPI_File_write_at_all_begin",
  "MPI_File_write_all_begin",   "MPI_File_write_ordered_begin",  "MPI_File_iwrite_at",
  "MPI_File_iwrite",            "MPI_File_iwrite_shared",        "MPI_File_seek",
  "MPI_File_seek_shared",       "MPI_File_get_size"]

/-- `MPI_communication_functions` from the source. -/
def mpiCommFunctions : List String := [
  "MPI_Comm_size",              "MPI_Comm_rank",                 "MPI_Get_processor_name",
  "MPI_Comm_set_errhandler",    "MPI_Barrier",                   "MPI_Bcast",
  "MPI_Ibcast",                 "MPI_Gather",                    "MPI_Scatter",
  "MPI_Gatherv",                "MPI_Scatterv",                  "MPI_Allgather",
  "MPI_Allgatherv",             "MPI_Alltoall",                  "MPI_Reduce",
  "MPI_Allreduce",              "MPI_Reduce_scatter",            "MPI_Waitall",
  "MPI_Scan",                   "MPI_Type_create_darray",        "MPI_Type_commit",
  "MPI_Finalized",
  "MPI_Cart_rank",              "MPI_Cart_create",               "MPI_Cart_get",
  "MPI_Cart_shift",             "MPI_Wait",                      "MPI_Send",
  "MPI_Recv",                   "MPI_Sendrecv",                  "MPI_Isend",
  "MPI_Irecv",                  "MPI_Waitsome",                  "MPI_Waitany",
  "MPI_Ssend",                  "MPI_Comm_split",                "MPI_Comm_create",
  "MPI_Comm_dup",               "MPI_Comm_free",                 "MPI_Cart_sub",
  "MPI_Test",                   "MPI_Testall",                   "MPI_Testsome",
  "MPI_Testany",                "MPI_Ireduce",                   "MPI_Igather",
  "MPI_Iscatter",               "MPI_Ialltoall",                 "MPI_Comm_split_type",
  "MPI_Init",                   "MPI_Init_thread",               "MPI_Finalize"]

/-- `HDF5_IO_functions` from the source. -/
def hdf5IOFunctions : List String := [
  "H5Fcreate",            "H5Fopen",              "H5Fclose",     "H5Fflush",
  "H5Gclose",             "H5Gcreate1",           "H5Gcreate2",
  "H5Gget_objinfo",       "H5Giterate",           "H5Gopen1",
  "H5Gopen2",             "H5Dclose",             "H5Dcreate1",
  "H5Dcreate2",           "H5Dget_create_plist",  "H5Dget_space",
  "H5Dget_type",          "H5Dopen1",             "H5Dopen2",
  "H5Dread",              "H5Dwrite",             "H5Dset_extent",
  "H5Sclose",             "H5Sget_simple_extent_npoints",
  "H5Screate",            "H5Screate_simple",     "H5Sget_select_npoints",
  "H5Sselect_elements",   "H5Sget_simple_extent_dims",
  "H5Sselect_hyperslab",  "H5Sselect_none",       "H5Tclose",
  "H5Tcopy",              "H5Tget_class",         "H5Tget_size",
  "H5Tset_size",          "H5Tcreate",            "H5Tinsert",
  "H5Aclose",             "H5Acreate1",           "H5Acreate2",
  "H5Aget_name",          "H5Aget_num_attrs",     "H5Aget_space",
  "H5Aget_type",          "H5Aopen",              "H5Aopen_idx",
  "H5Aopen_name",         "H5Aread",              "H5Awrite",
  "H5Pclose",             "H5Pcreate",            "H5Pget_chunk",
  "H5Pget_mdc_config",    "H5Pset_alignment",     "H5Pset_chunk",
  "H5Pset_dxpl_mpio",     "H5Pset_fapl_core",     "H5Pset_fapl_mpio",
  "H5Pset_fapl_mpiposix", "H5Pset_istore_k",      "H5Pset_mdc_config",
  "H5Lexists",            "H5Lget_val",           "H5Pset_meta_block_size",
  "H5Literate",           "H5Oclose",             "H5Oget_info",
  "H5Oget_info_by_name",  "H5Oopen",
  "H5Pset_coll_metadata_write",                   "H5Pget_coll_metadata_write",
  "H5Pset_all_coll_metadata_ops",                 "H5Pget_all_coll_metadata_ops"]

/-- The `function_type` column: `'I/O'` when the name is in one of the three
I/O tables, else `'communication'` when in the MPI communication table,
else `'compute'`. -/
def functionType (name : String) : String :=
  if posixIOFunctions.contains name || mpiIOFunctions.contains name
      || hdf5IOFunctions.contains name then "I/O"
  else if mpiCommFunctions.contains name then "communication"
  else "compute"

/-- The `I/O_type` column: `'write'` if the name contains `write`, else
`'read'` if it contains `read`, else `'meta'` when it is in one of the
three I/O tables, else `'not I/O'`. -/
def ioTypeOf (name : String) : String :=
  if strHasSub name "write" then "write"
  else if strHasSub name "read" then "read"
  else if posixIOFunctions.contains name || mpiIOFunctions.contains name
      || hdf5IOFunctions.contains name then "meta"
  else "not I/O"

/-- The `I/O_interface` column. -/
def ioInterfaceOf (name : String) : String :=
  if posixIOFunctions.contains name then "POSIX"
  else if mpiIOFunctions.contains name then "MPIIO"
  else if hdf5IOFunctions.contains name then "HDF5"
  else "not I/O"

/-- Which branch of the `elif` chain in `RecorderReader.read` handles a
function name; the constructors are listed in the source's textual order. -/
inductive OpKind where
  | mpiH5
  | fdopen
  | fopen
  | openF
  | seek
  | close
  | sync
  | fwriteFread
  | writevReadv
  | pwritePread
  | writeRead
  | fprintf
  | other
deriving DecidableEq

/-- The `elif` chain of `RecorderReader.read`, lines 265-418: the first
substring test that fires selects the branch. -/
def dispatchKind (name : String) : OpKind :=
  if strHasSub name "MPI" || strHasSub name "H5" then .mpiH5
  else if strHasSub name "fdopen" then .fdopen
  else if strHasSub name "fopen" then .fopen
  else if strHasSub name "open" then .openF
  else if strHasSub name "seek" then .seek
  else if strHasSub name "close" then .close
  else if strHasSub name "sync" then .sync
  else if strHasSub name "fwrite" || strHasSub name "fread" then .fwriteFread
  else if strHasSub name "writev" || strHasSub name "readv" then .writevReadv
  else if strHasSub name "pwrite" || strHasSub name "pread" then .pwritePread
  else if strHasSub name "write" || strHasSub name "read" then .writeRead
  else if strHasSub name "fprintf" then .fprintf
  else .other

/-- One raw call record as consumed by the replay loop: `funcName` is
`self.reader.funcs[record.func_id]`, `args` is the result of
`record.args_to_strs()` (`none` models the `UnicodeDecodeError` or
`AttributeError` the source catches, which yields placeholder arguments
and `error = 1`), `res` is `record.res`. -/
structure RawRec where
  rank : Nat
  funcId : Nat
  funcName : String
  tstart : Int
  tend : Int
  argCount : Nat
  args : Option (List String)
  res : Int
deriving DecidableEq

/-- The `error` column of one output row: `None`, the integer `1` set on
argument-decode failure, or an error/warning string. -/
inductive ErrAnn where
  | ok
  | decodeFail
  | msg (s : String)
deriving DecidableEq

/-- One row of `records_as_dict`, the normalized record. -/
structure NormRec where
  rank : Nat
  funcId : Nat
  funcName : String
  tstart : Int
  tend : Int
  time : Int
  argCount : Nat
  args : List String
  res : Int
  fileName : Option String
  ioVolume : Option Int
  offset : Option Int
  functionType : String
  ioType : String
  ioInterface : String
  err : ErrAnn
deriving DecidableEq

/-- One rank's `fd_to_filename` and `fd_offset` dictionaries. -/
structure RankState where
  fdToFilename : List (Int × String)
  fdOffset : List (Int × Int)
deriving DecidableEq

/-- All ranks' descriptor tables plus the shared `end_of_files` dictionary
(one `end_of_files` dict serves every rank in the source). -/
structure GlobalState where
  tables : List RankState
  endOfFiles : List (String × Int)
deriving DecidableEq

/-- Result of one branch of the `elif` chain: the updated rank tables and
end-of-file dict, plus the `filename` / `io_size` / `offset` / `error`
locals the branch leaves behind for the column appends. -/
structure OpOut where
  tbl : RankState
  eofs : List (String × Int)
  fileName : Option String
  ioSize : Option Int
  offset : Option Int
  err : Option String
deriving DecidableEq

/-- The `fdopen` branch (source lines 267-277). -/
def fdopenOp (tbl : RankState) (eofs : List (String × Int)) (res : Int)
    (fargs : List String) : Option OpOut :=
  match argInt fargs 0 with
  | none => none
  | some oldFd =>
    match alookup oldFd tbl.fdToFilename with
    | none => some ⟨tbl, eofs, some "__unknown__", none, none,
        some "Error: fdopen a non-existing file descriptor (no previous open returns this file descriptor or already closed)"⟩
    | some fname =>
        some ⟨⟨aset res fname tbl.fdToFilename, aset res 0 tbl.fdOffset⟩,
          eofs, some fname, none, none, none⟩

/-- The `fopen` branch (source lines 279-289): bind the returned descriptor
to the first argument, register the file with end-of-file 0 when unseen,
offset 0, except append mode (`'a' in openMode`) which starts at the
file's current end-of-file. -/
def fopenOp (tbl : RankState) (eofs : List (String × Int)) (res : Int)
    (fargs : List String) : Option OpOut :=
  match fargs.get? 0 with
  | none => none
  | some fname =>
    let eofs1 := if (alookup fname eofs).isNone then aset fname 0 eofs else eofs
    match fargs.get? 1 with
    | none => none
    | some mode =>
      if strHasSub mode "a" then
        match alookup fname eofs1 with
        | none => none
        | some e =>
            some ⟨⟨aset res fname tbl.fdToFilename, aset res e (aset res 0 tbl.fdOffset)⟩,
              eofs1, some fname, none, none, none⟩
      else
        some ⟨⟨aset res fname tbl.fdToFilename, aset res 0 tbl.fdOffset⟩,
          eofs1, some fname, none, none, none⟩

/-- The `open` branch (source lines 291-302): like `fopen` but the mode is
parsed as an integer and append is `openMode == 2`. -/
def openOp (tbl : RankState) (eofs : List (String × Int)) (res : Int)
    (fargs : List String) : Option OpOut :=
  match fargs.get? 0 with
  | none => none
  | some fname =>
    let eofs1 := if (alookup fname eofs).isNone then aset fname 0 eofs else eofs
    match argInt fargs 1 with
    | none => none
    | some flag =>
      if flag == 2 then
        match alookup fname eofs1 with
        | none => none
        | some e =>
            some ⟨⟨aset res fname tbl.fdToFilename, aset res e (aset res 0 tbl.fdOffset)⟩,
              eofs1, some fname, none, none, none⟩
      else
        some ⟨⟨aset res fname tbl.fdToFilename, aset res 0 tbl.fdOffset⟩,
          eofs1, some fname, none, none, none⟩

/-- The `seek` branch (source lines 304-335).  The emitted `offset` column
is the parsed delta argument on the found path and `-1` when the
descriptor is unknown. -/
def seekOp (tbl : RankState) (eofs : List (String × Int))
    (fargs : List String) : Option OpOut :=
  match argInt fargs 0 with
  | none => none
  | some fd =>
  match argInt fargs 1 with
  | none => none
  | some delta =>
  match argInt fargs 2 with
  | none => none
  | some whence =>
  match alookup fd tbl.fdToFilename with
  | none => some ⟨tbl, eofs, some "__unknown__", none, some (-1),
      some "Error: seek a non-existing file descriptor (no open returns this file descriptor or already closed)"⟩
  | some fname =>
    if whence == 0 then
      some ⟨⟨tbl.fdToFilename, aset fd delta tbl.fdOffset⟩, eofs,
        some fname, none, some delta, none⟩
    else if whence == 1 then
      match alookup fd tbl.fdOffset with
      | none => none
      | some off =>
      match alookup fname eofs with
      | none => none
      | some e =>
        if off + delta > e then
          some ⟨⟨tbl.fdToFilename, aset fd (off + delta) tbl.fdOffset⟩, eofs,
            some fname, none, some delta, some "Warning: seek beyond end of file"⟩
        else if off + delta < 0 then
          some ⟨tbl, eofs, some fname, none, some delta,
            some "Error: seek beyond start of file"⟩
        else
          some ⟨⟨tbl.fdToFilename, aset fd (off + delta) tbl.fdOffset⟩, eofs,
            some fname, none, some delta, none⟩
    else if whence == 2 then
      match alookup fname eofs with
      | none => none
      | some e =>
        if delta > 0 then
          some ⟨⟨tbl.fdToFilename, aset fd (e + delta) tbl.fdOffset⟩, eofs,
            some fname, none, some delta, some "Warning: seek beyond end of file"⟩
        else if e + delta < 0 then
          some ⟨tbl, eofs, some fname, none, some delta,
            some "Error: seek beyond start of file"⟩
        else
          some ⟨⟨tbl.fdToFilename, aset fd (e + delta) tbl.fdOffset⟩, eofs,
            some fname, none, some delta, none⟩
    else
      some ⟨tbl, eofs, some fname, none, some delta, none⟩

/-- The `close` branch (source lines 337-346). -/
def closeOp (tbl : RankState) (eofs : List (String × Int))
    (fargs : List String) : Option OpOut :=
  match argInt fargs 0 with
  | none => none
  | some fd =>
  match alookup fd tbl.fdToFilename with
  | none => some ⟨tbl, eofs, some "__unknown__", none, none,
      some "Error: close a non-existing file descriptor (no open returns this file descriptor or already closed)"⟩
  | some fname =>
      some ⟨⟨adel fd tbl.fdToFilename, adel fd tbl.fdOffset⟩, eofs,
        some fname, none, none, none⟩

/-- The `sync` branch (source lines 348-355): read-only lookup. -/
def syncOp (tbl : RankState) (eofs : List (String × Int))
    (fargs : List String) : Option OpOut :=
  match argInt fargs 0 with
  | none => none
  | some fd =>
  match alookup fd tbl.fdToFilename with
  | none => some ⟨tbl, eofs, some "__unknown__", none, none,
      some "Error: sync a non-existing file descriptor (no open returns this file descriptor or already closed)"⟩
  | some fname => some ⟨tbl, eofs, some fname, none, none, none⟩

/-- The `fwrite`/`fread` branch (source lines 357-370): io size is
args 1 times 2, descriptor is arg 3; on the found path the record gets the
pre-advance offset, the offset advances by the io size and the file's
end-of-file becomes the max of itself and the new offset. -/
def fwriteOp (tbl : RankState) (eofs : List (String × Int))
    (fargs : List String) : Option OpOut :=
  match argInt fargs 1 with
  | none => none
  | some a1 =>
  match argInt fargs 2 with
  | none => none
  | some a2 =>
  match argInt fargs 3 with
  | none => none
  | some fd =>
  match alookup fd tbl.fdToFilename with
  | none => some ⟨tbl, eofs, some "__unknown__", some (a1 * a2), some (-1),
      some "Error: write or read a non-existing file descriptor (no open returns this file descriptor or already closed)"⟩
  | some fname =>
    match alookup fd tbl.fdOffset with
    | none => none
    | some off =>
    match alookup fname eofs with
    | none => none
    | some e =>
      some ⟨⟨tbl.fdToFilename, aset fd (off + a1 * a2) tbl.fdOffset⟩,
        aset fname (max e (off + a1 * a2)) eofs,
        some fname, some (a1 * a2), some off, none⟩

/-- The `writev`/`readv` branch (source lines 372-384): descriptor is
arg 0, io size is arg 1, otherwise as the buffered transfer. -/
def vecOp (tbl : RankState) (eofs : List (String × Int))
    (fargs : List String) : Option OpOut :=
  match argInt fargs 0 with
  | none => none
  | some fd =>
  match argInt fargs 1 with
  | none => none
  | some ioSize =>
  match alookup fd tbl.fdToFilename with
  | none => some ⟨tbl, eofs, some "__unknown__", some ioSize, some (-1),
      some "Error: write or read a non-existing file descriptor (no open returns this file descriptor or already closed)"⟩
  | some fname =>
    match alookup fd tbl.fdOffset with
    | none => none
    | some off =>
    match alookup fname eofs with
    | none => none
    | some e =>
      some ⟨⟨tbl.fdToFilename, aset fd (off + ioSize) tbl.fdOffset⟩,
        aset fname (max e (off + ioSize)) eofs,
        some fname, some ioSize, some off, none⟩

/-- The `pwrite`/`pread` branch (source lines 386-402): explicit offset
argument, the running offset is untouched, and the end-of-file update
`max(eof, offset + io_size)` runs unconditionally, after the bounds
annotations. -/
def pwriteOp (tbl : RankState) (eofs : List (String × Int))
    (fargs : List String) : Option OpOut :=
  match argInt fargs 0 with
  | none => none
  | some fd =>
  match argInt fargs 2 with
  | none => none
  | some ioSize =>
  match argInt fargs 3 with
  | none => none
  | some off =>
  match alookup fd tbl.fdToFilename with
  | none => some ⟨tbl, eofs, some "__unknown__", some ioSize, some off,
      some "Error: write or read a non-existing file descriptor (no open returns this file descriptor or already closed)"⟩
  | some fname =>
    match alookup fname eofs with
    | none => none
    | some e =>
      some ⟨tbl, aset fname (max e (off + ioSize)) eofs, some fname,
        some ioSize, some off,
        if off > e then some "Warning: pwrite or pread beyond end of file"
        else if off < 0 then some "Error: pwrite or pread beyond start of file"
        else none⟩

/-- The generic `write`/`read` branch (source lines 404-416): descriptor is
arg 0, io size arg 2, behaviour as the buffered transfer. -/
def rwOp (tbl : RankState) (eofs : List (String × Int))
    (fargs : List String) : Option OpOut :=
  match argInt fargs 0 with
  | none => none
  | some fd =>
  match argInt fargs 2 with
  | none => none
  | some ioSize =>
  match alookup fd tbl.fdToFilename with
  | none => some ⟨tbl, eofs, some "__unknown__", some ioSize, some (-1),
      some "Error: write or read a non-existing file descriptor (no open returns this file descriptor or already closed)"⟩
  | some fname =>
    match alookup fd tbl.fdOffset with
    | none => none
    | some off =>
    match alookup fname eofs with
    | none => none
    | some e =>
      some ⟨⟨tbl.fdToFilename, aset fd (off + ioSize) tbl.fdOffset⟩,
        aset fname (max e (off + ioSize)) eofs,
        some fname, some ioSize, some off, none⟩

/-- The `fprintf` branch (source lines 418-430): descriptor arg 0, io size
arg 1, behaviour as the buffered transfer. -/
def fprintfOp (tbl : RankState) (eofs : List (String × Int))
    (fargs : List String) : Option OpOut :=
  match argInt fargs 0 with
  | none => none
  | some fd =>
  match argInt fargs 1 with
  | none => none
  | some ioSize =>
  match alookup fd tbl.fdToFilename with
  | none => some ⟨tbl, eofs, some "__unknown__", some ioSize, some (-1),
      some "Error: fprintf a non-existing file descriptor (no open returns this file descriptor or already closed)"⟩
  | some fname =>
    match alookup fd tbl.fdOffset with
    | none => none
    | some off =>
    match alookup fname eofs with
    | none => none
    | some e =>
      some ⟨⟨tbl.fdToFilename, aset fd (off + ioSize) tbl.fdOffset⟩,
        aset fname (max e (off + ioSize)) eofs,
        some fname, some ioSize, some off, none⟩

/-- Per-record outputs that depend on the branch taken: the final argument
list and the `file_name`, `io_volume`, `offset` and `error` locals. -/
structure SimOut where
  args : List String
  fileName : Option String
  ioSize : Option Int
  offset : Option Int
  err : ErrAnn
deriving DecidableEq

/-- The placeholder argument list installed on decode failure. -/
def placeholderArgs : List String :=
  ["None", "None", "None", "None", "None", "None"]

def errOf : Option String → ErrAnn
  | none => .ok
  | some s => .msg s

/-- One iteration of the main loop of `read`, up to the column appends:
fetch the rank's dictionaries, decode the arguments, run the `elif` chain
and write the updated tables back.  `none` models an uncaught exception
(a missing or non-numeric argument hitting `int`, or a key error), which
aborts `read` entirely. -/
def simulate (st : GlobalState) (r : RawRec) : Option (GlobalState × SimOut) :=
  match st.tables.get? r.rank with
  | none => none
  | some tbl =>
    match r.args with
    | none => some (st, ⟨placeholderArgs, none, none, none, .decodeFail⟩)
    | some fargs =>
      let commit : Option OpOut → Option (GlobalState × SimOut) := fun o =>
        o.map (fun out =>
          (⟨st.tables.set r.rank out.tbl, out.eofs⟩,
           ⟨fargs, out.fileName, out.ioSize, out.offset, errOf out.err⟩))
      match dispatchKind r.funcName with
      | .mpiH5 => some (st, ⟨fargs, none, none, none, .ok⟩)
      | .fdopen => commit (fdopenOp tbl st.endOfFiles r.res fargs)
      | .fopen => commit (fopenOp tbl st.endOfFiles r.res fargs)
      | .openF => commit (openOp tbl st.endOfFiles r.res fargs)
      | .seek => commit (seekOp tbl st.endOfFiles fargs)
      | .close => commit (closeOp tbl st.endOfFiles fargs)
      | .sync => commit (syncOp tbl st.endOfFiles fargs)
      | .fwriteFread => commit (fwriteOp tbl st.endOfFiles fargs)
      | .writevReadv => commit (vecOp tbl st.endOfFiles fargs)
      | .pwritePread => commit (pwriteOp tbl st.endOfFiles fargs)
      | .writeRead => commit (rwOp tbl st.endOfFiles fargs)
      | .fprintf => commit (fprintfOp tbl st.endOfFiles fargs)
      | .other => some (st, ⟨fargs, none, none, none, .ok⟩)

/-- The column appends (source lines 432-469): every field of the output
row either copies the raw record, takes a branch local, or applies the
classifier to the function name. -/
def assemble (r : RawRec) (out : SimOut) : NormRec :=
  { rank := r.rank
    funcId := r.funcId
    funcName := r.funcName
    tstart := r.tstart
    tend := r.tend
    time := r.tend - r.tstart
    argCount := r.argCount
    args := out.args
    res := r.res
    fileName := out.fileName
    ioVolume := out.ioSize
    offset := out.offset
    functionType := functionType r.funcName
    ioType := ioTypeOf r.funcName
    ioInterface := ioInterfaceOf r.funcName
    err := out.err }

/-- One full loop iteration: simulate then emit the row. -/
def processRecord (st : GlobalState) (r : RawRec) :
    Option (GlobalState × NormRec) :=
  (simulate st r).map (fun p => (p.1, assemble r p.2))

/-- The replay loop over an already-sorted record list, threading the
mutable state; `none` aborts the whole run, emitting nothing. -/
def replayAux (st : GlobalState) : List RawRec → Option (GlobalState × List NormRec)
  | [] => some (st, [])
  | r :: rs =>
    match processRecord st r with
    | none => none
    | some (st', nr) =>
      match replayAux st' rs with
      | none => none
      | some (stf, nrs) => some (stf, nr :: nrs)

/-- Stable insertion by `tstart`: an element is placed before the first
entry with a strictly larger or equal-and-later `tstart`. -/
def insertRec (x : RawRec) : List RawRec → List RawRec
  | [] => [x]
  | y :: ys =>
      if x.tstart ≤ y.tstart then x :: y :: ys else y :: insertRec x ys

/-- Model of `sorted(all_records, key=lambda x: x.tstart)`: a stable sort
by start time. -/
def sortRecs : List RawRec → List RawRec
  | [] => []
  | x :: xs => insertRec x (sortRecs xs)

/-- One rank's fresh tables: descriptors 0, 1, 2 bound to the standard
streams at offset 0. -/
def initRank : RankState :=
  ⟨[(0, "stdin"), (1, "stdout"), (2, "stderr")], [(0, 0), (1, 0), (2, 0)]⟩

/-- The state before the loop: one fresh table per rank and the seeded
`end_of_files` dict. -/
def initState (n : Nat) : GlobalState :=
  ⟨List.replicate n initRank, [("stdin", 0), ("stdout", 0), ("stderr", 0)]⟩

/-- The whole of `read` on `n` ranks: globally sort the gathered records by
`tstart` (stable), then replay them against fresh tables. -/
def replayAll (n : Nat) (l : List RawRec) : Option (GlobalState × List NormRec) :=
  replayAux (initState n) (sortRecs l)

/-- The identity-carrying fields an input record contributes verbatim to
its output row. -/
def rawKey (x : RawRec) : Nat × String × Int × Int × Int :=
  (x.rank, x.funcName, x.tstart, x.tend, x.res)

/-- The same identity fields read off an output row. -/
def normKey (x : NormRec) : Nat × String × Int × Int × Int :=
  (x.rank, x.funcName, x.tstart, x.tend, x.res)

/-- A seek record whose descriptor argument is the non-numeric string
`"abc"`. -/
def c1badSeek : RawRec := ⟨0, 0, "lseek", 0, 1, 3, some ["abc", "0", "0"], 0⟩

/-- A seek record with only one argument, so the delta and whence
arguments are missing. -/
def c1shortSeek : RawRec := ⟨0, 0, "lseek", 0, 1, 1, some ["5"], 0⟩

/-- A harmless later record of the same rank. -/
def c1next : RawRec := ⟨0, 0, "foo", 1, 2, 0, some [], 0⟩

/-- `open("f", 0)` returning descriptor 3. -/
def c3openRec : RawRec := ⟨0, 0, "open", 0, 1, 2, some ["f", "0"], 3⟩

/-- `lseek(3, -5, 0)`: an absolute seek to a negative position. -/
def c3seekRec : RawRec := ⟨0, 0, "lseek", 1, 2, 3, some ["3", "-5", "0"], 0⟩

/-- A record of a function touching no descriptor, with `tstart < tend`. -/
def c9rec : RawRec := ⟨0, 0, "foo", 1, 2, 0, some [], 0⟩

/-- The output row the replay emits for `c9rec`. -/
def c9norm : NormRec :=
  ⟨0, 0, "foo", 1, 2, 1, 0, [], 0, none, none, none, "compute", "not I/O", "not I/O", .ok⟩

/-- A record whose end timestamp precedes its start timestamp. -/
def c9badRec : RawRec := ⟨0, 0, "foo", 1, 0, 0, some [], 0⟩

/-- An `MPI_File_open` record: its name contains both `MPI` and `open`. -/
def c10rec : RawRec := ⟨0, 0, "MPI_File_open", 0, 1, 2, some ["a", "b"], 5⟩

/-- The output row the replay emits for `c10rec`. -/
def c10norm : NormRec :=
  ⟨0, 0, "MPI_File_open", 0, 1, 1, 2, ["a", "b"], 5, none, none, none, "I/O", "meta", "MPIIO", .ok⟩

/-- Two rank-0 records with equal `tstart`, distinguished by `res`. -/
def c8w1 : RawRec := ⟨0, 0, "foo", 1, 2, 0, some [], 7⟩

/-- The second tied record. -/
def c8w2 : RawRec := ⟨0, 0, "foo", 1, 3, 0, some [], 8⟩

/-- The output row for `c8w1`. -/
def c8n1 : NormRec :=
  ⟨0, 0, "foo", 1, 2, 1, 0, [], 7, none, none, none, "compute", "not I/O", "not I/O", .ok⟩

/-- The output row for `c8w2`. -/
def c8n2 : NormRec :=
  ⟨0, 0, "foo", 1, 3, 2, 0, [], 8, none, none, none, "compute", "not I/O", "not I/O", .ok⟩

theorem alookup_aset_self [BEq α] [LawfulBEq α] (k : α) (v : β) :
    ∀ l : List (α × β), alookup k (aset k v l) = some v
  | [] => by simp [aset, alookup]
  | (a, b) :: rest => by
      by_cases h : (a == k) = true
      · simp [aset, alookup, h]
      · simp only [aset, alookup, h, Bool.false_eq_true, if_false]
        exact alookup_aset_self k v rest

theorem mem_values_aset [BEq α] (k : α) (v w : β) :
    ∀ l : List (α × β), w ∈ (aset k v l).map Prod.snd →
      w = v ∨ w ∈ l.map Prod.snd
  | [] => by simp [aset]
  | (a, b) :: rest => by
      by_cases h : (a == k) = true
      · simp [aset, h]
        tauto
      · simp only [aset, h, Bool.false_eq_true, if_false, List.map_cons,
          List.mem_cons]
        intro hw
        rcases hw with hw | hw
        · exact Or.inr (Or.inl hw)
        · rcases mem_values_aset k v w rest hw with hw' | hw'
          · exact Or.inl hw'
          · exact Or.inr (Or.inr hw')

theorem alookup_mem_values [BEq α] (k : α) (v : β) :
    ∀ l : List (α × β), alookup k l = some v → v ∈ l.map Prod.snd
  | [] => by simp [alookup]
  | (a, b) :: rest => by
      by_cases h : (a == k) = true
      · simp [alookup, h]
        intro hv
        exact Or.inl hv.symm
      · simp only [alookup, h, Bool.false_eq_true, if_false, List.map_cons,
          List.mem_cons]
        intro hv
        exact Or.inr (alookup_mem_values k v rest hv)

theorem mem_insertRec (x z : RawRec) :
    ∀ l : List RawRec, z ∈ insertRec x l ↔ z = x ∨ z ∈ l
  | [] => by simp [insertRec]
  | y :: ys => by
      by_cases hxy : x.tstart ≤ y.tstart
      · rw [insertRec, if_pos hxy]
        simp [List.mem_cons]
      · rw [insertRec, if_neg hxy]
        simp [List.mem_cons, mem_insertRec x z ys]
        tauto

theorem insertRec_pairwise (x : RawRec) :
    ∀ l : List RawRec,
      List.Pairwise (fun a b : RawRec => a.tstart ≤ b.tstart) l →
      List.Pairwise (fun a b : RawRec => a.tstart ≤ b.tstart) (insertRec x l)
  | [] => by simp [insertRec]
  | y :: ys => by
      intro h
      rw [List.pairwise_cons] at h
      obtain ⟨hy, hys⟩ := h
      by_cases hxy : x.tstart ≤ y.tstart
      · rw [insertRec, if_pos hxy]
        refine List.Pairwise.cons ?_ (List.Pairwise.cons hy hys)
        intro z hz
        rcases List.mem_cons.mp hz with rfl | hz'
        · exact hxy
        · exact le_trans hxy (hy z hz')
      · rw [insertRec, if_neg hxy]
        refine List.Pairwise.cons ?_ (insertRec_pairwise x ys hys)
        intro z hz
        rcases (mem_insertRec x z ys).mp hz with rfl | hz'
        · exact le_of_not_le hxy
        · exact hy z hz'

theorem sortRecs_pairwise :
    ∀ l : List RawRec,
      List.Pairwise (fun a b : RawRec => a.tstart ≤ b.tstart) (sortRecs l)
  | [] => by simp [sortRecs]
  | x :: xs => by
      rw [sortRecs]
      exact insertRec_pairwise x (sortRecs xs) (sortRecs_pairwise xs)

theorem filter_insertRec (r : Nat) (t : Int) (x : RawRec) :
    ∀ l : List RawRec,
      (insertRec x l).filter (fun y => y.rank == r && y.tstart == t) =
        if x.rank == r && x.tstart == t then
          x :: l.filter (fun y => y.rank == r && y.tstart == t)
        else l.filter (fun y => y.rank == r && y.tstart == t)
  | [] => by
      cases hpx : (x.rank == r && x.tstart == t) <;>
        simp [insertRec, List.filter, hpx]
  | y :: ys => by
      by_cases hxy : x.tstart ≤ y.tstart
      · rw [insertRec, if_pos hxy]
        cases hpx : (x.rank == r && x.tstart == t) <;>
          simp [List.filter_cons, hpx]
      · rw [insertRec, if_neg hxy]
        by_cases hpx : (x.rank == r && x.tstart == t) = true
        · have hxt : x.tstart = t := by
            have := (Bool.and_eq_true _ _).mp hpx
            exact beq_iff_eq.mp this.2
          have hpy : (y.rank == r && y.tstart == t) = false := by
            have hyt : (y.tstart == t) = false := by
              rw [beq_eq_false_iff_ne]
              intro hy'
              rw [hy', ← hxt] at hxy
              exact hxy le_rfl
            simp [hyt]
          simp [List.filter_cons, hpy, hpx, filter_insertRec r t x ys]
        · have hpx' : (x.rank == r && x.tstart == t) = false :=
            Bool.not_eq_true _ ▸ eq_false_of_ne_true hpx
          simp [List.filter_cons, filter_insertRec r t x ys, hpx']

theorem filter_sortRecs (r : Nat) (t : Int) :
    ∀ l : List RawRec,
      (sortRecs l).filter (fun y => y.rank == r && y.tstart == t) =
        l.filter (fun y => y.rank == r && y.tstart == t)
  | [] => rfl
  | x :: xs => by
      rw [sortRecs, filter_insertRec r t x (sortRecs xs)]
      cases hpx : (x.rank == r && x.tstart == t) <;>
        simp [List.filter_cons, hpx, filter_sortRecs r t xs]

theorem filter_of_map (f : α → β) (q : β → Bool) :
    ∀ l : List α, (l.map f).filter q = (l.filter (fun x => q (f x))).map f
  | [] => rfl
  | x :: xs => by
      cases hq : q (f x) <;>
        simp [List.filter_cons, hq, filter_of_map f q xs]

theorem processRecord_key (st : GlobalState) (r : RawRec)
    (p : GlobalState × NormRec) (h : processRecord st r = some p) :
    normKey p.2 = rawKey r := by
  unfold processRecord at h
  rcases Option.map_eq_some'.mp h with ⟨q, _, rfl⟩
  rfl

theorem replayAux_map_key :
    ∀ (l : List RawRec) (st : GlobalState) (p : GlobalState × List NormRec),
      replayAux st l = some p → p.2.map normKey = l.map rawKey
  | [], st, p => by
      intro h
      simp only [replayAux, Option.some_inj] at h
      subst h
      rfl
  | r :: rs, st, p => by
      intro h
      simp only [replayAux] at h
      cases hp : processRecord st r with
      | none => simp only [hp] at h; exact Option.noConfusion h
      | some q =>
        obtain ⟨st', nr⟩ := q
        simp only [hp] at h
        cases hr : replayAux st' rs with
        | none => simp only [hr] at h; exact Option.noConfusion h
        | some pr =>
          obtain ⟨stf, nrs⟩ := pr
          simp only [hr, Option.some_inj] at h
          subst h
          have hkey := processRecord_key st r (st', nr) hp
          have htail := replayAux_map_key rs st' (stf, nrs) hr
          simp only [List.map_cons]
          rw [hkey, htail]

/-- C1: the claim says an integer-parsing failure (non-numeric or missing
argument) in a descriptor-table operation must not abort the replay and
must take the unknown/error path for that record only.  In the code the
`try`/`except` protects only the argument decoding; `int(...)` on a
non-numeric string (`"abc"`) raises an uncaught `ValueError`, and a
missing argument an uncaught `IndexError`, so the whole replay aborts and
the subsequent record is never emitted. -/
theorem c1_replay_aborts :
    replayAll 1 [c1badSeek, c1next] = none ∧
      replayAll 1 [c1shortSeek, c1next] = none :=
  ⟨rfl, rfl⟩

/-- C2 counterexample: the claim puts `fwrite`/`fread` before `seek` in the
dispatch order, so a name matching `fwrite` should never reach the seek
branch; but the code tests `seek` first, and the name `"fwriteseek"`,
which contains `fwrite`, is handled by the seek branch. -/
theorem c2_counterexample :
    strHasSub "fwriteseek" "fwrite" = true ∧
      strHasSub "fwriteseek" "seek" = true ∧
      dispatchKind "fwriteseek" = OpKind.seek ∧
      OpKind.seek ≠ OpKind.fwriteFread :=
  ⟨rfl, rfl, rfl, by decide⟩

/-- C2 amended: the fixed substring-dispatch order of the code is
`fdopen` before `fopen` before `open` before `seek` before `close` before
`sync` before `fwrite`/`fread` before `writev`/`readv` before
`pwrite`/`pread` before `write`/`read` before `fprintf`; a name matching
an earlier pattern is never handled by a later branch. -/
theorem c2_dispatch_order (name : String)
    (hm : (strHasSub name "MPI" || strHasSub name "H5") = false) :
    (strHasSub name "fdopen" = true → dispatchKind name = OpKind.fdopen) ∧
    (strHasSub name "fdopen" = false → strHasSub name "fopen" = true →
      dispatchKind name = OpKind.fopen) ∧
    (strHasSub name "fdopen" = false → strHasSub name "fopen" = false →
      strHasSub name "open" = true → dispatchKind name = OpKind.openF) ∧
    (strHasSub name "fdopen" = false → strHasSub name "fopen" = false →
      strHasSub name "open" = false → strHasSub name "seek" = true →
      dispatchKind name = OpKind.seek) ∧
    (strHasSub name "fdopen" = false → strHasSub name "fopen" = false →
      strHasSub name "open" = false → strHasSub name "seek" = false →
      strHasSub name "close" = true → dispatchKind name = OpKind.close) ∧
    (strHasSub name "fdopen" = false → strHasSub name "fopen" = false →
      strHasSub name "open" = false → strHasSub name "seek" = false →
      strHasSub name "close" = false → strHasSub name "sync" = true →
      dispatchKind name = OpKind.sync) ∧
    (strHasSub name "fdopen" = false → strHasSub name "fopen" = false →
      strHasSub name "open" = false → strHasSub name "seek" = false →
      strHasSub name "close" = false → strHasSub name "sync" = false →
      (strHasSub name "fwrite" || strHasSub name "fread") = true →
      dispatchKind name = OpKind.fwriteFread) ∧
    (strHasSub name "fdopen" = false → strHasSub name "fopen" = false →
      strHasSub name "open" = false → strHasSub name "seek" = false →
      strHasSub name "close" = false → strHasSub name "sync" = false →
      (strHasSub name "fwrite" || strHasSub name "fread") = false →
      (strHasSub name "writev" || strHasSub name "readv") = true →
      dispatchKind name = OpKind.writevReadv) ∧
    (strHasSub name "fdopen" = false → strHasSub name "fopen" = false →
      strHasSub name "open" = false → strHasSub name "seek" = false →
      strHasSub name "close" = false → strHasSub name "sync" = false →
      (strHasSub name "fwrite" || strHasSub name "fread") = false →
      (strHasSub name "writev" || strHasSub name "readv") = false →
      (strHasSub name "pwrite" || strHasSub name "pread") = true →
      dispatchKind name = OpKind.pwritePread) ∧
    (strHasSub name "fdopen" = false → strHasSub name "fopen" = false →
      strHasSub name "open" = false → strHasSub name "seek" = false →
      strHasSub name "close" = false → strHasSub name "sync" = false →
      (strHasSub name "fwrite" || strHasSub name "fread") = false →
      (strHasSub name "writev" || strHasSub name "readv") = false →
      (strHasSub name "pwrite" || strHasSub name "pread") = false →
      (strHasSub name "write" || strHasSub name "read") = true →
      dispatchKind name = OpKind.writeRead) ∧
    (strHasSub name "fdopen" = false → strHasSub name "fopen" = false →
      strHasSub name "open" = false → strHasSub name "seek" = false →
      strHasSub name "close" = false → strHasSub name "sync" = false →
      (strHasSub name "fwrite" || strHasSub name "fread") = false →
      (strHasSub name "writev" || strHasSub name "readv") = false →
      (strHasSub name "pwrite" || strHasSub name "pread") = false →
      (strHasSub name "write" || strHasSub name "read") = false →
      strHasSub name "fprintf" = true → dispatchKind name = OpKind.fprintf) ∧
    (strHasSub name "fdopen" = false → strHasSub name "fopen" = false →
      strHasSub name "open" = false → strHasSub name "seek" = false →
      strHasSub name "close" = false → strHasSub name "sync" = false →
      (strHasSub name "fwrite" || strHasSub name "fread") = false →
      (strHasSub name "writev" || strHasSub name "readv") = false →
      (strHasSub name "pwrite" || strHasSub name "pread") = false →
      (strHasSub name "write" || strHasSub name "read") = false →
      strHasSub name "fprintf" = false → dispatchKind name = OpKind.other) := by
  refine ⟨?_, ?_, ?_, ?_, ?_, ?_, ?_, ?_, ?_, ?_, ?_, ?_⟩
  · intro g1; simp [dispatchKind, hm, g1]
  · intro g1 g2; simp [dispatchKind, hm, g1, g2]
  · intro g1 g2 g3; simp [dispatchKind, hm, g1, g2, g3]
  · intro g1 g2 g3 g4; simp [dispatchKind, hm, g1, g2, g3, g4]
  · intro g1 g2 g3 g4 g5; simp [dispatchKind, hm, g1, g2, g3, g4, g5]
  · intro g1 g2 g3 g4 g5 g6; simp [dispatchKind, hm, g1, g2, g3, g4, g5, g6]
  · intro g1 g2 g3 g4 g5 g6 g7
    simp [dispatchKind, hm, g1, g2, g3, g4, g5, g6, g7]
  · intro g1 g2 g3 g4 g5 g6 g7 g8
    simp [dispatchKind, hm, g1, g2, g3, g4, g5, g6, g7, g8]
  · intro g1 g2 g3 g4 g5 g6 g7 g8 g9
    simp [dispatchKind, hm, g1, g2, g3, g4, g5, g6, g7, g8, g9]
  · intro g1 g2 g3 g4 g5 g6 g7 g8 g9 g10
    simp [dispatchKind, hm, g1, g2, g3, g4, g5, g6, g7, g8, g9, g10]
  · intro g1 g2 g3 g4 g5 g6 g7 g8 g9 g10 g11
    simp [dispatchKind, hm, g1, g2, g3, g4, g5, g6, g7, g8, g9, g10, g11]
  · intro g1 g2 g3 g4 g5 g6 g7 g8 g9 g10 g11
    simp [dispatchKind, hm, g1, g2, g3, g4, g5, g6, g7, g8, g9, g10, g11]

/-- C2 witness: `"lseek"` matches no earlier pattern and lands in the seek
branch. -/
theorem c2_dispatch_order_witness : dispatchKind "lseek" = OpKind.seek :=
  (c2_dispatch_order "lseek" rfl).2.2.2.1 rfl rfl rfl rfl

/-- C3 counterexample: `open("f", 0) = 3` followed by `lseek(3, -5, 0)`
leaves descriptor 3 with offset `-5` in the rank's table, so a replayed
operation can leave a negative current offset. -/
theorem c3_counterexample :
    (replayAll 1 [c3openRec, c3seekRec]).map
        (fun p => p.1.tables.map (fun tb => alookup 3 tb.fdOffset)) =
      some [some (-5)] ∧ (-5 : Int) < 0 :=
  ⟨rfl, by decide⟩

/-- C3 amended: the guarded whence-1 and whence-2 seek branches do
preserve non-negativity of every stored offset (given non-negative
offsets and end-of-file values); it is only the whence-0 branch that
assigns the raw delta unconditionally. -/
theorem c3_seek_nonneg (tbl : RankState) (eofs : List (String × Int))
    (fargs : List String) (w : Int)
    (hw : argInt fargs 2 = some w) (h12 : w = 1 ∨ w = 2)
    (hoff : ∀ v ∈ tbl.fdOffset.map Prod.snd, (0 : Int) ≤ v)
    (heof : ∀ e ∈ eofs.map Prod.snd, (0 : Int) ≤ e) :
    ∀ out, seekOp tbl eofs fargs = some out →
      ∀ v ∈ out.tbl.fdOffset.map Prod.snd, (0 : Int) ≤ v := by
  intro out hout
  cases g0 : argInt fargs 0 with
  | none => simp only [seekOp, g0] at hout; exact Option.noConfusion hout
  | some fd =>
  cases g1 : argInt fargs 1 with
  | none => simp only [seekOp, g0, g1] at hout; exact Option.noConfusion hout
  | some delta =>
  simp only [seekOp, g0, g1, hw] at hout
  cases gf : alookup fd tbl.fdToFilename with
  | none =>
    simp only [gf, Option.some_inj] at hout
    subst hout
    exact hoff
  | some fname =>
    simp only [gf] at hout
    rcases h12 with rfl | rfl
    · rw [if_neg (by decide), if_pos (by decide)] at hout
      cases go : alookup fd tbl.fdOffset with
      | none => simp only [go] at hout; exact Option.noConfusion hout
      | some off =>
      cases ge : alookup fname eofs with
      | none => simp only [go, ge] at hout; exact Option.noConfusion hout
      | some e =>
      have he0 : (0 : Int) ≤ e := heof e (alookup_mem_values fname e eofs ge)
      simp only [go, ge] at hout
      split_ifs at hout with hgt hlt
      · rw [Option.some_inj] at hout
        subst hout
        intro v hv
        rcases mem_values_aset fd (off + delta) v tbl.fdOffset hv with rfl | hv'
        · omega
        · exact hoff v hv'
      · rw [Option.some_inj] at hout
        subst hout
        exact hoff
      · rw [Option.some_inj] at hout
        subst hout
        intro v hv
        rcases mem_values_aset fd (off + delta) v tbl.fdOffset hv with rfl | hv'
        · omega
        · exact hoff v hv'
    · rw [if_neg (by decide), if_neg (by decide), if_pos (by decide)] at hout
      cases ge : alookup fname eofs with
      | none => simp only [ge] at hout; exact Option.noConfusion hout
      | some e =>
      have he0 : (0 : Int) ≤ e := heof e (alookup_mem_values fname e eofs ge)
      simp only [ge] at hout
      split_ifs at hout with hgt hlt
      · rw [Option.some_inj] at hout
        subst hout
        intro v hv
        rcases mem_values_aset fd (e + delta) v tbl.fdOffset hv with rfl | hv'
        · omega
        · exact hoff v hv'
      · rw [Option.some_inj] at hout
        subst hout
        exact hoff
      · rw [Option.some_inj] at hout
        subst hout
        intro v hv
        rcases mem_values_aset fd (e + delta) v tbl.fdOffset hv with rfl | hv'
        · omega
        · exact hoff v hv'

/-- C3 witness for the amended statement: a concrete whence-1 seek. -/
theorem c3_seek_nonneg_witness :
    seekOp ⟨[(3, "f")], [(3, 0)]⟩ [("f", 10)] ["3", "4", "1"] =
        some ⟨⟨[(3, "f")], [(3, 4)]⟩, [("f", 10)], some "f", none, some 4, none⟩ ∧
      (0 : Int) ≤ 4 :=
  ⟨rfl, c3_seek_nonneg ⟨[(3, "f")], [(3, 0)]⟩ [("f", 10)] ["3", "4", "1"] 1
    rfl (Or.inl rfl) (by decide) (by decide)
    ⟨⟨[(3, "f")], [(3, 4)]⟩, [("f", 10)], some "f", none, some 4, none⟩ rfl
    4 (by decide)⟩

/-- C4: the seek semantics.  On an unknown descriptor the record gets file
`__unknown__`, offset `-1` and an error, with no state change.  On an open
descriptor: whence 0 sets the offset to the delta; whence 1 moves it by
the delta, with a warning (still applied) when the result exceeds the
file's end-of-file and an error (not applied) when the result is
negative; whence 2 does the same starting from the end-of-file value. -/
theorem c4_seek_semantics (tbl : RankState) (eofs : List (String × Int))
    (fargs : List String) (fd delta w : Int)
    (a0 : argInt fargs 0 = some fd) (a1 : argInt fargs 1 = some delta)
    (a2 : argInt fargs 2 = some w) :
    (alookup fd tbl.fdToFilename = none →
      seekOp tbl eofs fargs = some ⟨tbl, eofs, some "__unknown__", none, some (-1),
        some "Error: seek a non-existing file descriptor (no open returns this file descriptor or already closed)"⟩) ∧
    (∀ fname off e, alookup fd tbl.fdToFilename = some fname →
      alookup fd tbl.fdOffset = some off → alookup fname eofs = some e →
      (0 : Int) ≤ e →
      (w = 0 →
        seekOp tbl eofs fargs =
          some ⟨⟨tbl.fdToFilename, aset fd delta tbl.fdOffset⟩, eofs,
            some fname, none, some delta, none⟩) ∧
      (w = 1 →
        (off + delta > e →
          seekOp tbl eofs fargs =
            some ⟨⟨tbl.fdToFilename, aset fd (off + delta) tbl.fdOffset⟩, eofs,
              some fname, none, some delta,
              some "Warning: seek beyond end of file"⟩) ∧
        (off + delta < 0 →
          seekOp tbl eofs fargs =
            some ⟨tbl, eofs, some fname, none, some delta,
              some "Error: seek beyond start of file"⟩) ∧
        (0 ≤ off + delta → off + delta ≤ e →
          seekOp tbl eofs fargs =
            some ⟨⟨tbl.fdToFilename, aset fd (off + delta) tbl.fdOffset⟩, eofs,
              some fname, none, some delta, none⟩)) ∧
      (w = 2 →
        (e + delta > e →
          seekOp tbl eofs fargs =
            some ⟨⟨tbl.fdToFilename, aset fd (e + delta) tbl.fdOffset⟩, eofs,
              some fname, none, some delta,
              some "Warning: seek beyond end of file"⟩) ∧
        (e + delta < 0 →
          seekOp tbl eofs fargs =
            some ⟨tbl, eofs, some fname, none, some delta,
              some "Error: seek beyond start of file"⟩) ∧
        (0 ≤ e + delta → e + delta ≤ e →
          seekOp tbl eofs fargs =
            some ⟨⟨tbl.fdToFilename, aset fd (e + delta) tbl.fdOffset⟩, eofs,
              some fname, none, some delta, none⟩))) := by
  constructor
  · intro hn
    simp [seekOp, a0, a1, a2, hn]
  · intro fname off e hf ho he he0
    refine ⟨?_, ?_, ?_⟩
    · rintro rfl
      simp [seekOp, a0, a1, a2, hf]
    · rintro rfl
      refine ⟨?_, ?_, ?_⟩
      · intro hgt
        simp [seekOp, a0, a1, a2, hf, ho, he, hgt]
      · intro hlt
        have hng : ¬(off + delta > e) := by omega
        simp [seekOp, a0, a1, a2, hf, ho, he, hng, hlt]
      · intro hge hle
        have hng : ¬(off + delta > e) := by omega
        have hnl : ¬(off + delta < 0) := by omega
        simp [seekOp, a0, a1, a2, hf, ho, he, hng, hnl]
    · rintro rfl
      refine ⟨?_, ?_, ?_⟩
      · intro hgt
        have hd : delta > 0 := by omega
        simp [seekOp, a0, a1, a2, hf, he, hd]
      · intro hlt
        have hnd : ¬(delta > 0) := by omega
        simp [seekOp, a0, a1, a2, hf, he, hnd, hlt]
      · intro hge hle
        have hnd : ¬(delta > 0) := by omega
        have hnl : ¬(e + delta < 0) := by omega
        simp [seekOp, a0, a1, a2, hf, he, hnd, hnl]

/-- C4 witness: `lseek(3, 2, 1)` on an open descriptor at offset 5 with
end-of-file 10 moves the offset to 7 with no annotation. -/
theorem c4_seek_semantics_witness :
    seekOp ⟨[(3, "f")], [(3, 5)]⟩ [("f", 10)] ["3", "2", "1"] =
      some ⟨⟨[(3, "f")], [(3, 7)]⟩, [("f", 10)], some "f", none, some 2, none⟩ := by
  have h := (c4_seek_semantics ⟨[(3, "f")], [(3, 5)]⟩ [("f", 10)]
    ["3", "2", "1"] 3 2 1 rfl rfl rfl).2 "f" 5 10 rfl rfl rfl (by decide)
  exact (h.2.1 rfl).2.2 (by decide) (by decide)

/-- C5 counterexample: a `pwrite` at offset `-5` of 100 bytes on an open
descriptor with end-of-file 0 is annotated with the before-start error,
yet the end-of-file table is still extended to 95 — the operation is
applied despite the claim's "not applied". -/
theorem c5_counterexample :
    (pwriteOp ⟨[(3, "f")], [(3, 0)]⟩ [("f", 0)] ["3", "x", "100", "-5"]).map
        (fun o => (o.err, alookup "f" o.eofs, o.offset, o.tbl)) =
      some (some "Error: pwrite or pread beyond start of file", some 95,
        some (-5), ⟨[(3, "f")], [(3, 0)]⟩) ∧ (95 : Int) ≠ 0 :=
  ⟨rfl, by decide⟩

/-- C5 amended: on an open descriptor, `pwrite`/`pread` takes its offset
from the explicit argument, leaves the running offset table untouched,
annotates a warning when the offset exceeds the end-of-file and an error
when it is negative, and always updates the end-of-file to
`max(eof, offset + io_size)`, including on the error path. -/
theorem c5_pwrite_semantics (tbl : RankState) (eofs : List (String × Int))
    (fargs : List String) (fd ioSize off : Int) (fname : String) (e : Int)
    (a0 : argInt fargs 0 = some fd) (a2 : argInt fargs 2 = some ioSize)
    (a3 : argInt fargs 3 = some off)
    (hf : alookup fd tbl.fdToFilename = some fname)
    (he : alookup fname eofs = some e) :
    pwriteOp tbl eofs fargs =
      some ⟨tbl, aset fname (max e (off + ioSize)) eofs, some fname,
        some ioSize, some off,
        if off > e then some "Warning: pwrite or pread beyond end of file"
        else if off < 0 then some "Error: pwrite or pread beyond start of file"
        else none⟩ := by
  simp [pwriteOp, a0, a2, a3, hf, he]

/-- C5 witness for the amended statement: an in-bounds `pwrite`. -/
theorem c5_pwrite_semantics_witness :
    pwriteOp ⟨[(3, "f")], [(3, 0)]⟩ [("f", 10)] ["3", "x", "4", "2"] =
      some ⟨⟨[(3, "f")], [(3, 0)]⟩, [("f", 10)], some "f", some 4, some 2, none⟩ :=
  c5_pwrite_semantics ⟨[(3, "f")], [(3, 0)]⟩ [("f", 10)] ["3", "x", "4", "2"]
    3 4 2 "f" 10 rfl rfl rfl rfl rfl

/-- C6: an open-family call binds the returned descriptor to the file
named by the first argument, registers the file with end-of-file 0 when
unseen, and starts the offset at 0 — except `fopen` with a mode containing
`a`, or `open` with numeric flag 2, which start at the file's current
end-of-file. -/
theorem c6_open_semantics (tbl : RankState) (eofs : List (String × Int))
    (res : Int) (fargs : List String) (fname mode : String)
    (g0 : fargs.get? 0 = some fname) (g1 : fargs.get? 1 = some mode) :
    (∀ e, alookup fname
        (if (alookup fname eofs).isNone then aset fname 0 eofs else eofs) = some e →
      fopenOp tbl eofs res fargs =
        some ⟨⟨aset res fname tbl.fdToFilename,
            if strHasSub mode "a" then aset res e (aset res 0 tbl.fdOffset)
            else aset res 0 tbl.fdOffset⟩,
          (if (alookup fname eofs).isNone then aset fname 0 eofs else eofs),
          some fname, none, none, none⟩ ∧
      alookup res (if strHasSub mode "a" then aset res e (aset res 0 tbl.fdOffset)
          else aset res 0 tbl.fdOffset) =
        some (if strHasSub mode "a" then e else 0)) ∧
    (∀ flag e, pyToInt mode = some flag →
      alookup fname
        (if (alookup fname eofs).isNone then aset fname 0 eofs else eofs) = some e →
      openOp tbl eofs res fargs =
        some ⟨⟨aset res fname tbl.fdToFilename,
            if flag == 2 then aset res e (aset res 0 tbl.fdOffset)
            else aset res 0 tbl.fdOffset⟩,
          (if (alookup fname eofs).isNone then aset fname 0 eofs else eofs),
          some fname, none, none, none⟩ ∧
      alookup res (if flag == 2 then aset res e (aset res 0 tbl.fdOffset)
          else aset res 0 tbl.fdOffset) =
        some (if flag == 2 then e else 0)) := by
  constructor
  · intro e he
    constructor
    · cases ha : strHasSub mode "a" with
      | false =>
          simp only [fopenOp, g0, g1, ha, Bool.false_eq_true, if_false]
      | true =>
          simp only [fopenOp, g0, g1, ha, eq_self_iff_true, if_true, he]
    · cases ha : strHasSub mode "a" with
      | false =>
          simp only [ha, Bool.false_eq_true, if_false]
          exact alookup_aset_self res 0 tbl.fdOffset
      | true =>
          simp only [ha, eq_self_iff_true, if_true]
          exact alookup_aset_self res e (aset res 0 tbl.fdOffset)
  · intro flag e hflag he
    have hai : argInt fargs 1 = some flag := by
      unfold argInt
      rw [g1]
      exact hflag
    constructor
    · cases h2f : (flag == 2) with
      | false =>
          simp only [openOp, g0, hai, h2f, Bool.false_eq_true, if_false]
      | true =>
          simp only [openOp, g0, hai, h2f, eq_self_iff_true, if_true, he]
    · cases h2f : (flag == 2) with
      | false =>
          simp only [h2f, Bool.false_eq_true, if_false]
          exact alookup_aset_self res 0 tbl.fdOffset
      | true =>
          simp only [h2f, eq_self_iff_true, if_true]
          exact alookup_aset_self res e (aset res 0 tbl.fdOffset)

/-- C6 witness: `fopen("g", "a")` returning descriptor 4 on a file with
end-of-file 42 starts the descriptor at offset 42. -/
theorem c6_open_semantics_witness :
    (fopenOp ⟨[], []⟩ [("g", 42)] 4 ["g", "a"] =
        some ⟨⟨[(4, "g")], [(4, 42)]⟩, [("g", 42)], some "g", none, none, none⟩) ∧
      alookup 4 [((4 : Int), (42 : Int))] = some 42 := by
  have h := (c6_open_semantics ⟨[], []⟩ [("g", 42)] 4 ["g", "a"] "g" "a"
    rfl rfl).1 42 rfl
  exact ⟨h.1, h.2⟩

/-- C7: the classifier is a pure total function of the name: io type is
`write` when the name contains `write`, else `read` when it contains
`read`, else `meta` when the name is in one of the three I/O tables, else
`not I/O`; the category is `I/O` for table members, `communication` for
MPI-communication members, else `compute`; the interface is
POSIX/MPIIO/HDF5 by table, else `not I/O`. -/
theorem c7_classifier (name : String) :
    (strHasSub name "write" = true → ioTypeOf name = "write") ∧
    (strHasSub name "write" = false → strHasSub name "read" = true →
      ioTypeOf name = "read") ∧
    (strHasSub name "write" = false → strHasSub name "read" = false →
      (posixIOFunctions.contains name || mpiIOFunctions.contains name
        || hdf5IOFunctions.contains name) = true → ioTypeOf name = "meta") ∧
    (strHasSub name "write" = false → strHasSub name "read" = false →
      (posixIOFunctions.contains name || mpiIOFunctions.contains name
        || hdf5IOFunctions.contains name) = false →
      ioTypeOf name = "not I/O") ∧
    ((posixIOFunctions.contains name || mpiIOFunctions.contains name
        || hdf5IOFunctions.contains name) = true →
      functionType name = "I/O") ∧
    ((posixIOFunctions.contains name || mpiIOFunctions.contains name
        || hdf5IOFunctions.contains name) = false →
      mpiCommFunctions.contains name = true →
      functionType name = "communication") ∧
    ((posixIOFunctions.contains name || mpiIOFunctions.contains name
        || hdf5IOFunctions.contains name) = false →
      mpiCommFunctions.contains name = false →
      functionType name = "compute") ∧
    (posixIOFunctions.contains name = true → ioInterfaceOf name = "POSIX") ∧
    (posixIOFunctions.contains name = false →
      mpiIOFunctions.contains name = true → ioInterfaceOf name = "MPIIO") ∧
    (posixIOFunctions.contains name = false →
      mpiIOFunctions.contains name = false →
      hdf5IOFunctions.contains name = true → ioInterfaceOf name = "HDF5") ∧
    (posixIOFunctions.contains name = false →
      mpiIOFunctions.contains name = false →
      hdf5IOFunctions.contains name = false →
      ioInterfaceOf name = "not I/O") := by
  refine ⟨?_, ?_, ?_, ?_, ?_, ?_, ?_, ?_, ?_, ?_, ?_⟩
  · intro g1
    simp only [ioTypeOf, g1, eq_self_iff_true, if_true]
  · intro g1 g2
    simp only [ioTypeOf, g1, g2, Bool.false_eq_true, if_false,
      eq_self_iff_true, if_true]
  · intro g1 g2 g3
    simp only [ioTypeOf, g1, g2, g3, Bool.false_eq_true, if_false,
      eq_self_iff_true, if_true]
  · intro g1 g2 g3
    simp only [ioTypeOf, g1, g2, g3, Bool.false_eq_true, if_false]
  · intro g1
    simp only [functionType, g1, eq_self_iff_true, if_true]
  · intro g1 g2
    simp only [functionType, g1, g2, Bool.false_eq_true, if_false,
      eq_self_iff_true, if_true]
  · intro g1 g2
    simp only [functionType, g1, g2, Bool.false_eq_true, if_false]
  · intro g1
    simp only [ioInterfaceOf, g1, eq_self_iff_true, if_true]
  · intro g1 g2
    simp only [ioInterfaceOf, g1, g2, Bool.false_eq_true, if_false,
      eq_self_iff_true, if_true]
  · intro g1 g2 g3
    simp only [ioInterfaceOf, g1, g2, g3, Bool.false_eq_true, if_false,
      eq_self_iff_true, if_true]
  · intro g1 g2 g3
    simp only [ioInterfaceOf, g1, g2, g3, Bool.false_eq_true, if_false]

/-- C7 witness: `fwrite` classifies as a POSIX I/O write. -/
theorem c7_classifier_witness :
    ioTypeOf "fwrite" = "write" ∧ functionType "fwrite" = "I/O" ∧
      ioInterfaceOf "fwrite" = "POSIX" :=
  ⟨(c7_classifier "fwrite").1 rfl,
   (c7_classifier "fwrite").2.2.2.2.1 rfl,
   (c7_classifier "fwrite").2.2.2.2.2.2.2.1 rfl⟩

/-- C8: in the replayed output, each rank's rows are non-decreasing in
`tstart`, and the rows of one rank with one `tstart` value carry exactly
the raw records' identifying fields in their original emission order
(the global sort is stable). -/
theorem c8_rank_order (n : Nat) (l : List RawRec)
    (p : GlobalState × List NormRec) (h : replayAll n l = some p) (r : Nat) :
    List.Pairwise (fun a b : NormRec => a.tstart ≤ b.tstart)
        (p.2.filter (fun x => x.rank == r)) ∧
    ∀ t : Int,
      (p.2.filter (fun x => x.rank == r && x.tstart == t)).map normKey =
        (l.filter (fun x => x.rank == r && x.tstart == t)).map rawKey := by
  have h' : replayAux (initState n) (sortRecs l) = some p := h
  have hkeys : p.2.map normKey = (sortRecs l).map rawKey :=
    replayAux_map_key (sortRecs l) (initState n) p h'
  constructor
  · have hmap : p.2.map (fun x : NormRec => x.tstart) =
        (sortRecs l).map (fun x : RawRec => x.tstart) := by
      have hproj := congrArg
        (List.map (fun u : Nat × String × Int × Int × Int => u.2.2.1)) hkeys
      simpa [List.map_map, Function.comp, normKey, rawKey] using hproj
    have hsp : List.Pairwise (fun a b : Int => a ≤ b)
        ((sortRecs l).map (fun x : RawRec => x.tstart)) :=
      List.pairwise_map.mpr (sortRecs_pairwise l)
    rw [← hmap] at hsp
    have hp2 : List.Pairwise (fun a b : NormRec => a.tstart ≤ b.tstart) p.2 :=
      List.pairwise_map.mp hsp
    exact List.Pairwise.sublist (List.filter_sublist _) hp2
  · intro t
    have e1 : (p.2.filter (fun x => x.rank == r && x.tstart == t)).map normKey =
        (p.2.map normKey).filter
          (fun u : Nat × String × Int × Int × Int => u.1 == r && u.2.2.1 == t) :=
      (filter_of_map normKey
        (fun u : Nat × String × Int × Int × Int => u.1 == r && u.2.2.1 == t)
        p.2).symm
    have e2 : ((sortRecs l).map rawKey).filter
          (fun u : Nat × String × Int × Int × Int => u.1 == r && u.2.2.1 == t) =
        ((sortRecs l).filter (fun x => x.rank == r && x.tstart == t)).map rawKey :=
      filter_of_map rawKey
        (fun u : Nat × String × Int × Int × Int => u.1 == r && u.2.2.1 == t)
        (sortRecs l)
    rw [e1, hkeys, e2, filter_sortRecs r t l]

/-- C8 witness: two tied rank-0 records keep their emission order. -/
theorem c8_rank_order_witness :
    ([c8n1, c8n2].filter (fun x => x.rank == 0 && x.tstart == 1)).map normKey =
      ([c8w1, c8w2].filter (fun x => x.rank == 0 && x.tstart == 1)).map rawKey :=
  (c8_rank_order 1 [c8w1, c8w2] (initState 1, [c8n1, c8n2]) rfl 0).2 1

/-- C9 counterexample: a raw record with `tend < tstart` is emitted with
`tstart > tend`, so the claimed invariant fails on the code, which never
enforces it. -/
theorem c9_counterexample :
    (processRecord (initState 1) c9badRec).map
        (fun p => (p.2.tstart, p.2.tend)) = some (1, 0) ∧
      ¬((1 : Int) ≤ 0) :=
  ⟨rfl, by decide⟩

/-- C9 amended: the replay copies `tstart` and `tend` verbatim from the
raw record into the emitted row (and `time` is their difference), so
`tstart ≤ tend` holds in the output exactly when it holds in the input. -/
theorem c9_time_copied (st : GlobalState) (r : RawRec)
    (p : GlobalState × NormRec) (h : processRecord st r = some p) :
    p.2.tstart = r.tstart ∧ p.2.tend = r.tend ∧
      p.2.time = r.tend - r.tstart := by
  unfold processRecord at h
  rcases Option.map_eq_some'.mp h with ⟨q, _, rfl⟩
  exact ⟨rfl, rfl, rfl⟩

/-- C9 witness for the amended statement. -/
theorem c9_time_copied_witness :
    processRecord (initState 1) c9rec = some (initState 1, c9norm) ∧
      c9norm.tstart = c9rec.tstart ∧ c9norm.tend = c9rec.tend ∧
      c9norm.time = c9rec.tend - c9rec.tstart :=
  ⟨rfl, c9_time_copied (initState 1) c9rec (initState 1, c9norm) rfl⟩

/-- C10: a record whose name contains `MPI` or `H5` bypasses the
descriptor simulation: the state is returned unchanged, file name, io
volume and offset are all null, and the classification columns are still
computed from the name; when the rank is in range the record is still
emitted. -/
theorem c10_mpi_h5_bypass (st : GlobalState) (r : RawRec)
    (h : (strHasSub r.funcName "MPI" || strHasSub r.funcName "H5") = true) :
    (∀ p, processRecord st r = some p → p.1 = st ∧ p.2.fileName = none ∧
        p.2.ioVolume = none ∧ p.2.offset = none ∧
        p.2.functionType = functionType r.funcName ∧
        p.2.ioType = ioTypeOf r.funcName ∧
        p.2.ioInterface = ioInterfaceOf r.funcName) ∧
    (r.rank < st.tables.length → (processRecord st r).isSome = true) := by
  have hd : dispatchKind r.funcName = OpKind.mpiH5 := by
    simp [dispatchKind, h]
  constructor
  · intro p hp
    unfold processRecord simulate at hp
    cases hg : st.tables.get? r.rank with
    | none =>
      simp only [hg, Option.map_none'] at hp
      exact Option.noConfusion hp
    | some tbl =>
      cases ha : r.args with
      | none =>
        simp only [hg, ha, Option.map_some'] at hp
        rcases Option.some_inj.mp hp with rfl
        exact ⟨rfl, rfl, rfl, rfl, rfl, rfl, rfl⟩
      | some fargs =>
        simp only [hg, ha, hd, Option.map_some'] at hp
        rcases Option.some_inj.mp hp with rfl
        exact ⟨rfl, rfl, rfl, rfl, rfl, rfl, rfl⟩
  · intro hlen
    unfold processRecord simulate
    cases hg : st.tables.get? r.rank with
    | none =>
      exfalso
      rw [List.get?_eq_none] at hg
      omega
    | some tbl =>
      cases ha : r.args with
      | none => simp [hg, ha]
      | some fargs => simp [hg, ha, hd]

/-- C10 witness: a concrete `MPI_File_open` record leaves the state
untouched and is classified from its name. -/
theorem c10_mpi_h5_bypass_witness :
    (initState 1, c10norm).1 = initState 1 ∧ c10norm.fileName = none ∧
      c10norm.ioVolume = none ∧ c10norm.offset = none ∧
      c10norm.functionType = functionType "MPI_File_open" ∧
      c10norm.ioType = ioTypeOf "MPI_File_open" ∧
      c10norm.ioInterface = ioInterfaceOf "MPI_File_open" :=
  (c10_mpi_h5_bypass (initState 1) c10rec rfl).1 (initState 1, c10norm) rfl

end RecorderReader
